import Mathlib

/-!
Verification of the KohakuEngine execution-isolation and orchestration core
against its natural-language specification.

The Python source is shallowly embedded: Python modules become association
lists of attributes, the AST fragment relevant to entrypoint discovery becomes
an inductive type, and each operation under scrutiny (`GlobalInjector.inject`,
`EntrypointFinder`, `ScriptExecutor.execute`, `ConfigLoader.load_config`,
`ConfigGenerator.__next__`, `Sequential.run`, `Script.__post_init__`,
`ScriptWorkflow.__init__`) becomes an executable Lean function mirroring the
source, statement by statement.  Filesystem and import-machinery effects
(`Path.exists`, `importlib.util.find_spec`, actually invoking an entry
function) enter as explicit oracle parameters.
-/

namespace KE

/-- A Python runtime value, abstracted to what the engine inspects: whether it
is callable, plus an opaque payload distinguishing values. -/
structure PyVal where
  callable : Bool
  payload : Nat
deriving DecidableEq, Repr

/-- A loaded Python module: its attribute dictionary, in insertion order. -/
structure PyModule where
  attrs : List (String × PyVal)
deriving DecidableEq, Repr

deriving instance DecidableEq for Except

/-- `hasattr(module, name)`. -/
def PyModule.hasattr (m : PyModule) (n : String) : Bool :=
  m.attrs.any (fun p => p.1 == n)

/-- `getattr(module, name, None)`. -/
def PyModule.getattr (m : PyModule) (n : String) : Option PyVal :=
  (m.attrs.find? (fun p => p.1 == n)).map (·.2)

/-- `setattr(module, name, value)`: replace in place if present, else append. -/
def PyModule.setAttr (m : PyModule) (n : String) (v : PyVal) : PyModule :=
  if m.attrs.any (fun p => p.1 == n) then
    ⟨m.attrs.map (fun p => if p.1 == n then (n, v) else p)⟩
  else
    ⟨m.attrs ++ [(n, v)]⟩

/-! ## `engine/injector.py` — `GlobalInjector` -/

/-- `GlobalInjector.PROTECTED_NAMES` (injector.py lines 12-21). -/
def PROTECTED_NAMES : List String :=
  ["__name__", "__file__", "__package__", "__loader__", "__spec__",
   "__cached__", "__builtins__", "__doc__"]

/-- `GlobalInjector.inject` (injector.py lines 42-47).  The Python loop walks
the override dict in insertion order; on a protected name it raises
`ValueError` (modelled as `some name` in the second component), leaving the
module as mutated so far; otherwise it sets the attribute and continues. -/
def inject (m : PyModule) : List (String × PyVal) → PyModule × Option String
  | [] => (m, none)
  | (n, v) :: rest =>
    if n ∈ PROTECTED_NAMES then (m, some n)
    else inject (m.setAttr n v) rest

/-- All overrides applied in order, no protected-name check (reference
function used to describe `inject`'s partial progress). -/
def applyAll (m : PyModule) (g : List (String × PyVal)) : PyModule :=
  g.foldl (fun acc p => acc.setAttr p.1 p.2) m

/-- First protected name occurring in an override list, in order. -/
def firstProtected (g : List (String × PyVal)) : Option String :=
  g.findSome? (fun p => if p.1 ∈ PROTECTED_NAMES then some p.1 else none)

/-! ## `engine/script.py` — `Script.__post_init__` target parsing

Strings are handled as `List Char` (`String.data`); the regexes of the source
are translated by hand:
`r"\.py:([a-zA-Z_][a-zA-Z0-9_]*)$"` matches iff the text after the *last*
colon is a nonempty identifier reaching the end of the string (identifier
characters exclude `:`) and the text before that colon ends in `.py`;
`r"\.py(:[a-zA-Z_][a-zA-Z0-9_]*)?$"` additionally accepts a plain `.py`
ending. -/

/-- `[a-zA-Z_]`. -/
def isIdentStart (c : Char) : Bool := c.isAlpha || c == '_'

/-- `[a-zA-Z0-9_]`. -/
def isIdentChar (c : Char) : Bool := c.isAlpha || c.isDigit || c == '_'

/-- `[a-zA-Z_][a-zA-Z0-9_]*` over a whole string. -/
def isIdentifier : List Char → Bool
  | [] => false
  | c :: rest => isIdentStart c && rest.all isIdentChar

/-- Split a string at its last colon: `some (before, after)` with
`s = before ++ ':' :: after` and no colon in `after`; `none` when the string
has no colon.  Models both `str.rsplit(":", 1)` (script.py line 97) and the
end-anchored colon of the entry-suffix regexes. -/
def splitLastColon : List Char → Option (List Char × List Char)
  | [] => none
  | c :: rest =>
    match splitLastColon rest with
    | some (p, e) => some (c :: p, e)
    | none => if c = ':' then some ([], rest) else none

/-- Does the string end in `.py`? -/
def endsWithPy (s : List Char) : Bool := ['.', 'p', 'y'].isSuffixOf s

/-- `re.search(r"\.py:([a-zA-Z_][a-zA-Z0-9_]*)$", s)` (script.py line 122):
`some (path, entry)` when the string is `<path ending in .py>:<identifier>`. -/
def fileEntryMatch (s : List Char) : Option (List Char × List Char) :=
  match splitLastColon s with
  | some (p, e) => if endsWithPy p && isIdentifier e then some (p, e) else none
  | none => none

/-- `Script._looks_like_module` (script.py lines 67-91). -/
def looksLikeModule (s : List Char) : Bool :=
  if s.any (fun c => c == '/' || c == '\\') then false
  else if endsWithPy s || (fileEntryMatch s).isSome then false
  else true

/-- Outcome of `Script.__post_init__`: the validated descriptor fields. -/
structure ScriptDesc where
  /-- For a file target, the stored path string (possibly suffix-stripped);
  for an importable target, the module file location reported by the import
  system (not modelled further). -/
  storedPath : List Char
  entrypoint : Option (List Char)
  is_module : Bool
  module_name : Option (List Char)
deriving DecidableEq, Repr

/-- Construction failures of `Script.__post_init__`. -/
inductive ScriptErr
  | moduleNotFound
  | fileNotFound
  | notPyFile
deriving DecidableEq, Repr

/-- The import-validation tail of `Script._init_as_module` (script.py lines
103-116): `findSpec` is the `importlib.util.find_spec` oracle — `none` means
unresolvable, `some loc` the module's file location (`spec.origin`). -/
def resolveModuleSpec (findSpec : List Char → Option (List Char))
    (modulePart : List Char) (entry : Option (List Char)) :
    Except ScriptErr ScriptDesc :=
  match findSpec modulePart with
  | none => .error .moduleNotFound
  | some loc => .ok ⟨loc, entry, true, some modulePart⟩

/-- `Script._init_as_module` (script.py lines 93-116): split off a trailing
`:entry` at the last colon, keep an already-set explicit entrypoint, then
validate importability. -/
def initAsModule (findSpec : List Char → Option (List Char))
    (explicit : Option (List Char)) (s : List Char) :
    Except ScriptErr ScriptDesc :=
  match splitLastColon s with
  | some (modulePart, entryPart) =>
      resolveModuleSpec findSpec modulePart
        (if explicit = none then some entryPart else explicit)
  | none => resolveModuleSpec findSpec s explicit

/-- The filesystem-validation tail of `Script._init_as_file` (script.py lines
132-138): `fileExists` and `isPyFile` are the `Path.exists` /
`Path.suffix == ".py"` oracles on the stored (suffix-stripped) path. -/
def validateFilePath (fileExists isPyFile : List Char → Bool)
    (path : List Char) (entry : Option (List Char)) :
    Except ScriptErr ScriptDesc :=
  if !fileExists path then .error .fileNotFound
  else if !isPyFile path then .error .notPyFile
  else .ok ⟨path, entry, false, none⟩

/-- `Script._init_as_file` (script.py lines 118-138): strip a matching
`.py:entry` suffix, keep an already-set explicit entrypoint, then validate
the stored path. -/
def initAsFile (fileExists isPyFile : List Char → Bool)
    (explicit : Option (List Char)) (s : List Char) :
    Except ScriptErr ScriptDesc :=
  match fileEntryMatch s with
  | some (scriptPath, entryName) =>
      validateFilePath fileExists isPyFile scriptPath
        (if explicit = none then some entryName else explicit)
  | none => validateFilePath fileExists isPyFile s explicit

/-- `Script.__post_init__` (script.py lines 56-65). -/
def mkScript (findSpec : List Char → Option (List Char))
    (fileExists isPyFile : List Char → Bool)
    (explicit : Option (List Char)) (s : List Char) :
    Except ScriptErr ScriptDesc :=
  if looksLikeModule s then initAsModule findSpec explicit s
  else initAsFile fileExists isPyFile explicit s

/-! ## `engine/entrypoint.py` — `EntrypointFinder`

The Python AST fragment the finder inspects.  Python expressions never
contain statements, so a statement-only walk visits every `If` node that
`ast.walk` would, in the same relative order. -/

/-- Comparison operators, collapsed to what `_is_main_guard` distinguishes. -/
inductive PyCmpOp
  | eq
  | otherOp
deriving DecidableEq, Repr

/-- Python expressions (the shapes `EntrypointFinder` distinguishes). -/
inductive PyExpr
  | name (id : String)
  | strConst (s : String)
  | otherConst
  | attrOf (value : PyExpr) (field : String)
  | callE (f : PyExpr) (args : List PyExpr)
  | compareE (left : PyExpr) (ops : List PyCmpOp) (comparators : List PyExpr)
  | otherExpr

/-- Python statements (the shapes `EntrypointFinder` distinguishes; statements
it never matches on, such as function definitions or loops, collapse to
`other`). -/
inductive PyStmt
  | exprStmt (e : PyExpr)
  | ifStmt (test : PyExpr) (body orelse : List PyStmt)
  | other

/-- `EntrypointFinder._is_main_guard` (entrypoint.py lines 120-142). -/
def isMainGuard : PyExpr → Bool
  | .compareE left ops comparators =>
      (match left with
        | .name id => id == "__name__"
        | _ => false)
      && (match ops with
        | [.eq] => true
        | _ => false)
      && (match comparators with
        | [.strConst s] => s == "__main__"
        | _ => false)
  | _ => false

/-- The call-statement patterns recognised inside a main-guard body
(entrypoint.py lines 99-117): a bare-name call `f()` yields `f`; the pattern
`asyncio.run(g(...), ...)` yields `g`; anything else yields nothing. -/
def callMatch : PyStmt → Option String
  | .exprStmt (.callE f args) =>
    match f with
    | .name id => some id
    | .attrOf (.name obj) meth =>
        if obj == "asyncio" && meth == "run" then
          match args with
          | .callE (.name inner) _ :: _ => some inner
          | _ => none
        else none
    | _ => none
  | _ => none

mutual

/-- Number of statement nodes in a statement, itself included. -/
def stmtWeight : PyStmt → Nat
  | .exprStmt _ => 1
  | .ifStmt _ body orelse => 1 + stmtsWeight body + stmtsWeight orelse
  | .other => 1

/-- Number of statement nodes in a statement list. -/
def stmtsWeight : List PyStmt → Nat
  | [] => 0
  | s :: rest => stmtWeight s + stmtsWeight rest

end

/-- Child statements, as `ast.iter_child_nodes` yields them for the node
shapes that can contain statements. -/
def stmtChildren : PyStmt → List PyStmt
  | .ifStmt _ body orelse => body ++ orelse
  | _ => []

/-- Breadth-first queue walk with explicit fuel: pop the front, emit it, push
its children at the back.  Every queued node is popped exactly once, so any
fuel at least the total node count of the queue yields the full walk. -/
def bfsWalkFuel : Nat → List PyStmt → List PyStmt
  | 0, _ => []
  | _ + 1, [] => []
  | fuel + 1, s :: rest => s :: bfsWalkFuel fuel (rest ++ stmtChildren s)

/-- Walk over all statement nodes of a module, mirroring `ast.walk`'s queue
(entrypoint.py line 94 iterates `ast.walk(tree)`).  `stmtsWeight tree` is the
exact number of nodes the walk visits, hence exact fuel. -/
def bfsWalk (tree : List PyStmt) : List PyStmt :=
  bfsWalkFuel (stmtsWeight tree) tree

/-- The guard-scanning step of `_find_main_block_function` for one walked
node (entrypoint.py lines 95-117): on an `If` whose test is the main guard,
return the first matching call of its immediate body, else nothing. -/
def guardMatch : PyStmt → Option String
  | .ifStmt test body _ =>
      if isMainGuard test then body.findSome? callMatch else none
  | _ => none

/-- `EntrypointFinder._find_main_block_function` (entrypoint.py lines
80-118): first walked main-guard `If` whose body contains a matching call. -/
def findMainBlockFunction (tree : List PyStmt) : Option String :=
  (bfsWalk tree).findSome? guardMatch

/-- The `main` fallback shared by `find_entrypoint` (entrypoint.py lines
47-48) and `find_entrypoint_for_module` (lines 74-76): a callable attribute
named `main`, identified here by its name. -/
def mainFallback (m : PyModule) : Option String :=
  if m.hasattr "main" &&
      (match m.getattr "main" with
        | some v => v.callable
        | none => false) then
    some "main"
  else none

/-- `EntrypointFinder.find_entrypoint` (entrypoint.py lines 14-50), returning
the name of the chosen attribute (the source returns
`getattr(module, name)`). -/
def find_entrypoint (m : PyModule) (tree : List PyStmt) : Option String :=
  match findMainBlockFunction tree with
  | some n => if m.hasattr n then some n else mainFallback m
  | none => mainFallback m

/-- `EntrypointFinder.find_entrypoint_for_module` (entrypoint.py lines
52-78). -/
def find_entrypoint_for_module (m : PyModule) : Option String :=
  mainFallback m

/-- Modelled from the claim's words, for comparison with the source: examine
only the literally first call statement of the guard's body — if its callee
is a bare name take that name, if it is `asyncio.run` wrapping a bare-name
call take the inner name, and in every other case (including a first call of
any other shape) fall back to the conventional `main`. -/
def claimResolution (m : PyModule) (tree : List PyStmt) : Option String :=
  let firstGuardBody :=
    (bfsWalk tree).findSome? (fun s =>
      match s with
      | .ifStmt test body _ => if isMainGuard test then some body else none
      | _ => none)
  let resolved := match firstGuardBody with
    | some body =>
        match body.find? (fun s =>
          match s with
          | .exprStmt (.callE _ _) => true
          | _ => false) with
        | some firstCall => callMatch firstCall
        | none => none
    | none => none
  match resolved with
  | some n => if m.hasattr n then some n else mainFallback m
  | none => mainFallback m

/-- The names matched by main-guard conditionals, in walk order (one per
guard whose body contains a matching call statement). -/
def resolvedNames (tree : List PyStmt) : List String :=
  (bfsWalk tree).filterMap guardMatch

/-- Modelled from the claim as amended: the entry name comes from the first
call statement whose callee is a bare name or which is `asyncio.run` wrapping
a bare-name call — call statements of any other shape are skipped, as are
main-guard conditionals whose bodies contain no matching call; otherwise fall
back to a callable `main`. -/
def claimResolutionAmended (m : PyModule) (tree : List PyStmt) : Option String :=
  match (resolvedNames tree).head? with
  | some n => if m.hasattr n then some n else mainFallback m
  | none => mainFallback m

/-- A unit whose main guard first calls a method on an object and then a bare
name: `if __name__ == "__main__": obj.meth(); foo()`. -/
def guardSkipTree : List PyStmt :=
  [.ifStmt (.compareE (.name "__name__") [.eq] [.strConst "__main__"])
    [.exprStmt (.callE (.attrOf (.name "obj") "meth") []),
     .exprStmt (.callE (.name "foo") [])] []]

/-- A module defining a callable `foo` and no `main`. -/
def fooOnlyModule : PyModule := ⟨[("foo", ⟨true, 0⟩)]⟩

/-! ## `engine/entrypoint.py` — `EntrypointFinder.call_entrypoint` -/

/-- `inspect.Parameter.kind` values. -/
inductive ParamKind
  | posOnly
  | posOrKw
  | varPos
  | kwOnly
  | varKw
deriving DecidableEq, Repr

/-- A declared signature: parameter names with their kinds, in order. -/
structure PySig where
  params : List (String × ParamKind)
deriving DecidableEq, Repr

/-- The argument-adaptation step of `EntrypointFinder.call_entrypoint`
(entrypoint.py lines 173-191): the `(call_args, call_kwargs)` actually passed
to the resolved entry operation. -/
def adaptArguments (sig : PySig) (args : List PyVal)
    (kwargs : List (String × PyVal)) : List PyVal × List (String × PyVal) :=
  let hasVarPositional := sig.params.any (fun p => p.2 == .varPos)
  let hasVarKeyword := sig.params.any (fun p => p.2 == .varKw)
  let callArgs := if hasVarPositional || sig.params.length > 0 then args else []
  let callKwargs0 := if hasVarKeyword then kwargs else []
  let callKwargs :=
    if !hasVarKeyword && !kwargs.isEmpty then
      kwargs.filter (fun kv => sig.params.any (fun p => p.1 == kv.1))
    else callKwargs0
  (callArgs, callKwargs)

/-- The claim's wording for accepting positional arguments: a positional
parameter, fixed (positional-only or positional-or-keyword) or variadic. -/
def acceptsPositional (sig : PySig) : Bool :=
  sig.params.any (fun p => p.2 == .posOnly || p.2 == .posOrKw || p.2 == .varPos)

/-! ## `config/base.py` — `Config` -/

/-- `Config` (base.py lines 107-136): overrides, positional arguments,
keyword arguments, metadata. -/
structure Config where
  globals_dict : List (String × PyVal)
  args : List PyVal
  kwargs : List (String × PyVal)
  metadata : List (String × PyVal)
deriving DecidableEq, Repr

/-! ## `engine/executor.py` — `ScriptExecutor.execute` -/

/-- The failures `ScriptExecutor.execute` and its callees can raise. -/
inductive ExecError
  /-- `ValueError` from `GlobalInjector.inject` (injector.py line 44). -/
  | protectedName (n : String)
  /-- `ValueError` from `_find_entrypoint` (executor.py lines 185-188). -/
  | entrypointNotFound (n : String)
  /-- `RuntimeError` "No entrypoint found" (executor.py lines 75-78). -/
  | noEntrypoint
  /-- Any failure raised by the invoked entry operation itself. -/
  | callFailure (tag : Nat)
deriving DecidableEq, Repr

/-- `ScriptExecutor.execute` (executor.py lines 28-80).  The module is
already loaded (`_load_module` modelled as the given `m`); `callFn` is the
`EntrypointFinder.call_entrypoint` outcome oracle for the chosen attribute
name and supplied arguments. -/
def execute (is_module : Bool) (m : PyModule) (tree : List PyStmt)
    (explicit : Option String) (scriptCfg argCfg : Option Config)
    (callFn : String → List PyVal → List (String × PyVal) →
      Except ExecError PyVal) :
    Except ExecError (Option PyVal) :=
  -- line 52: `config = config or self.script.config`
  let cfg := match argCfg with
    | some c => some c
    | none => scriptCfg
  -- lines 58-59: inject globals if config provided and nonempty
  let injected : Except ExecError PyModule :=
    match cfg with
    | some c =>
      if c.globals_dict.isEmpty then .ok m
      else
        match inject m c.globals_dict with
        | (_, some n) => .error (.protectedName n)
        | (m', none) => .ok m'
    | none => .ok m
  match injected with
  | .error e => .error e
  | .ok m' =>
    -- `_find_entrypoint` (executor.py lines 162-195)
    let resolved : Except ExecError (Option String) :=
      match explicit with
      | some e => if m'.hasattr e then .ok (some e)
                  else .error (.entrypointNotFound e)
      | none =>
        if is_module then .ok (find_entrypoint_for_module m')
        else .ok (find_entrypoint m' tree)
    match resolved with
    | .error e => .error e
    | .ok (some n) =>
      -- lines 63-71: call with config args/kwargs, or with none
      match cfg with
      | some c =>
        match callFn n c.args c.kwargs with
        | .error e => .error e
        | .ok v => .ok (some v)
      | none =>
        match callFn n [] [] with
        | .error e => .error e
        | .ok v => .ok (some v)
    | .ok none =>
      -- lines 72-80
      match cfg with
      | some _ => .error .noEntrypoint
      | none => .ok none

/-- The auto-detection the executor performs when no explicit entry name is
set (executor.py lines 189-195). -/
def autoResolve (is_module : Bool) (m : PyModule) (tree : List PyStmt) :
    Option String :=
  if is_module then find_entrypoint_for_module m else find_entrypoint m tree

/-! ## `config/generator.py` — `ConfigGenerator` -/

/-- One value yielded by the underlying producer: a `Config`, or anything
else (which `__next__` rejects with `TypeError`). -/
inductive GenItem
  | cfg (c : Config)
  | bad (tag : Nat)
deriving DecidableEq, Repr

/-- State of a `ConfigGenerator`: the underlying producer's remaining yields
and the `_exhausted` flag (generator.py lines 33-34). -/
structure GenState where
  remaining : List GenItem
  exhausted : Bool
deriving DecidableEq, Repr

/-- What one call of `ConfigGenerator.__next__` does. -/
inductive NextOutcome
  /-- A `Config` is returned (generator.py line 60). -/
  | yielded (c : Config)
  /-- `StopIteration("Config generator exhausted")` (line 52). -/
  | stopExhausted
  /-- The producer's own `StopIteration`, re-raised after setting
  `_exhausted` (lines 61-63). -/
  | stopUnderlying
  /-- `TypeError` for a non-`Config` yield (lines 56-59); `_exhausted` is not
  touched. -/
  | typeError
deriving DecidableEq, Repr

/-- `ConfigGenerator.__next__` (generator.py lines 40-63). -/
def genNext (s : GenState) : NextOutcome × GenState :=
  if s.exhausted then (.stopExhausted, s)
  else
    match s.remaining with
    | [] => (.stopUnderlying, ⟨[], true⟩)
    | .cfg c :: rest => (.yielded c, ⟨rest, s.exhausted⟩)
    | .bad _ :: rest => (.typeError, ⟨rest, s.exhausted⟩)

/-- `n` successive `__next__` calls: the outcomes and the final state. -/
def genPulls : Nat → GenState → List NextOutcome × GenState
  | 0, s => ([], s)
  | n + 1, s =>
    let (o, s') := genNext s
    let (os, s'') := genPulls n s'
    (o :: os, s'')

/-! ## `config/loader.py` — `ConfigLoader.load_config` -/

/-- The shape of a Python object as the loader inspects it:
`isinstance(result, Config)`, `hasattr(result, "__iter__")`,
`hasattr(result, "__next__")`.  A generator/iterator has both `__iter__` and
`__next__`; a plain sequence such as a list has `__iter__` only. -/
inductive PyObj
  | configObj (c : Config)
  | iteratorObj (items : List GenItem)
  | listObj (items : List GenItem)
  | plainObj (tag : Nat)
deriving DecidableEq, Repr

/-- `isinstance(·, Config)`. -/
def PyObj.isConfig : PyObj → Bool
  | .configObj _ => true
  | _ => false

/-- `hasattr(·, "__iter__")`. -/
def PyObj.hasIterAttr : PyObj → Bool
  | .iteratorObj _ => true
  | .listObj _ => true
  | _ => false

/-- `hasattr(·, "__next__")`. -/
def PyObj.hasNextAttr : PyObj → Bool
  | .iteratorObj _ => true
  | _ => false

/-- The yields the object would produce when iterated. -/
def PyObj.items : PyObj → List GenItem
  | .iteratorObj l => l
  | .listObj l => l
  | _ => []

/-- What a configuration file exposes: an optional `config_gen` symbol (with
its callability and — as the call oracle — the object a call returns) and an
optional `CONFIG` symbol.  Whether `config_gen` is called with or without
`worker_id` (loader.py lines 61-69) does not affect the shapes under claim,
so the call result is a single oracle value. -/
structure CfgFile where
  config_gen : Option (Bool × PyObj)
  CONFIG : Option PyObj

/-- `ConfigLoader.load_config` result: a single `Config`, or a
`ConfigGenerator` wrapping the iterator (with a fresh `_exhausted = false`
state). -/
inductive LoadResult
  | single (c : Config)
  | generator (s : GenState)
deriving DecidableEq, Repr

/-- The `ValueError`s of `ConfigLoader.load_config`. -/
inductive LoadError
  /-- "config_gen must be callable" (loader.py line 59). -/
  | notCallable
  /-- "config_gen() must return Config or generator" (lines 78-80). -/
  | shapeMismatch
  /-- "CONFIG must be Config instance" (lines 85-87). -/
  | configNotConfig
  /-- "Config file must define 'config_gen()' function or 'CONFIG' variable"
  (lines 91-93). -/
  | noConfigFound
deriving DecidableEq, Repr

/-- `ConfigLoader.load_config` (loader.py lines 56-93), after the file has
been loaded into a module. -/
def load_config (f : CfgFile) : Except LoadError LoadResult :=
  match f.config_gen with
  | some (isCallable, result) =>
    if !isCallable then .error .notCallable
    else if result.isConfig then
      match result with
      | .configObj c => .ok (.single c)
      | _ => .error .shapeMismatch
    else if result.hasIterAttr && result.hasNextAttr then
      .ok (.generator ⟨result.items, false⟩)
    else .error .shapeMismatch
  | none =>
    match f.CONFIG with
    | some obj =>
      match obj with
      | .configObj c => .ok (.single c)
      | _ => .error .configNotConfig
    | none => .error .noConfigFound

/-! ## `flow/sequential.py` — `Sequential.run` -/

/-- A failure surfaced by a workflow run: a failure of one execution, or the
`TypeError` a `ConfigGenerator` raises for a non-`Config` yield while being
iterated. -/
inductive RunError
  | fromExec (e : ExecError)
  | genTypeError
deriving DecidableEq, Repr

/-- One list entry of a `Sequential` workflow: a script with a fixed
(possibly absent) `Config`, or a script backed by a `ConfigGenerator`. -/
inductive SEntry
  | single (cfg : Option Config)
  | gen (s : GenState)

/-- The body of `_run_iterative`'s `for config in config_gen` loop
(sequential.py lines 178-180), unrolled over the producer's yields exactly as
`genNext` delivers them: a yielded `Config` triggers one `_run_once`
(outcome `oc i j` for the `j`-th pull of entry `i`, recorded in the trace);
the producer's completion ends the loop; a non-`Config` yield raises out of
the loop.  `oc` abstracts `_run_once` (in-process `ScriptExecutor.execute`
or a subprocess launch). -/
def goIter (oc : Nat → Nat → Except RunError PyVal) (i : Nat) :
    Nat → List GenItem → List (Nat × Nat) × Except RunError (List PyVal)
  | _, [] => ([], .ok [])
  | _, .bad _ :: _ => ([], .error .genTypeError)
  | j, .cfg _ :: rest =>
    match oc i j with
    | .error e => ([(i, j)], .error e)
    | .ok v =>
      let (tr, res) := goIter oc i (j + 1) rest
      ((i, j) :: tr, res.map (v :: ·))

/-- `Sequential._run_iterative` (sequential.py lines 157-182): iterate the
entry's `ConfigGenerator`; an already-exhausted generator raises
`StopIteration` on the first pull, which the `for` loop treats as the end. -/
def runIterative (oc : Nat → Nat → Except RunError PyVal) (i : Nat)
    (s : GenState) : List (Nat × Nat) × Except RunError (List PyVal) :=
  if s.exhausted then ([], .ok []) else goIter oc i 0 s.remaining

/-- `Sequential.run`'s loop over scripts (sequential.py lines 62-74), from
entry index `i`: a `ConfigGenerator` config runs `_run_iterative` and extends
the result list, any other config runs `_run_once` once and appends. -/
def runSeqAux (oc : Nat → Nat → Except RunError PyVal) :
    Nat → List SEntry → List (Nat × Nat) × Except RunError (List PyVal)
  | _, [] => ([], .ok [])
  | i, .single _ :: rest =>
    match oc i 0 with
    | .error e => ([(i, 0)], .error e)
    | .ok v =>
      let (tr, res) := runSeqAux oc (i + 1) rest
      ((i, 0) :: tr, res.map (v :: ·))
  | i, .gen g :: rest =>
    match runIterative oc i g with
    | (tr, .error e) => (tr, .error e)
    | (tr, .ok vs) =>
      let (tr', res') := runSeqAux oc (i + 1) rest
      (tr ++ tr', res'.map (vs ++ ·))

/-- `Sequential.run` (sequential.py lines 50-74), with the trace of performed
executions `(entry index, pull index)` made explicit alongside the returned
result list. -/
def Sequential_run (oc : Nat → Nat → Except RunError PyVal)
    (entries : List SEntry) : List (Nat × Nat) × Except RunError (List PyVal) :=
  runSeqAux oc 0 entries

/-- Is this underlying yield a `Config`? -/
def GenItem.isCfg : GenItem → Bool
  | .cfg _ => true
  | .bad _ => false

/-- A `Sequential` entry is well formed when a generator entry wraps a fresh
producer of `Config` values only (the shape `ConfigLoader` hands out). -/
def entryWF : SEntry → Bool
  | .single _ => true
  | .gen g => !g.exhausted && g.remaining.all GenItem.isCfg

/-- The tasks `Sequential.run` is expected to perform for one generator
entry: one per remaining yield, in order, starting at pull index `j`. -/
def canonGen (i : Nat) : Nat → List GenItem → List (Nat × Nat)
  | _, [] => []
  | j, _ :: rest => (i, j) :: canonGen i (j + 1) rest

/-- The tasks `Sequential.run` is expected to perform, in order, from entry
index `i`. -/
def canonFrom : Nat → List SEntry → List (Nat × Nat)
  | _, [] => []
  | i, .single _ :: rest => (i, 0) :: canonFrom (i + 1) rest
  | i, .gen g :: rest => canonGen i 0 g.remaining ++ canonFrom (i + 1) rest

/-- Reference sequential executor over a flat task list: run each task in
order, stop at the first failure. -/
def runFlat (oc : Nat → Nat → Except RunError PyVal) :
    List (Nat × Nat) → List (Nat × Nat) × Except RunError (List PyVal)
  | [] => ([], .ok [])
  | t :: rest =>
    match oc t.1 t.2 with
    | .error e => ([t], .error e)
    | .ok v =>
      let (tr, res) := runFlat oc rest
      (t :: tr, res.map (v :: ·))

/-- The value of a successful outcome. -/
def okVal : Except RunError PyVal → PyVal
  | .ok v => v
  | .error _ => ⟨false, 0⟩

/-! ## `flow/base.py` — `ScriptWorkflow.__init__` -/

/-- Construction failures of `ScriptWorkflow.__init__` /
`ScriptWorkflow.validate` (base.py lines 53-72). -/
inductive WorkflowErr
  /-- "Workflow must have at least one script" (line 54). -/
  | emptyScripts
  /-- "Script not found" from `validate` (line 71). -/
  | scriptMissing
deriving DecidableEq, Repr

/-- `ScriptWorkflow.__init__` (base.py lines 43-57): reject an empty script
list, then `validate` every script's path through the `exists` oracle. -/
def mkScriptWorkflow (exists_ : ScriptDesc → Bool) (scripts : List ScriptDesc) :
    Except WorkflowErr (List ScriptDesc) :=
  if scripts.isEmpty then .error .emptyScripts
  else if scripts.all exists_ then .ok scripts
  else .error .scriptMissing

/-- A constructed `Sequential` workflow object (sequential.py lines 39-48). -/
structure SeqWorkflow where
  scripts : List ScriptDesc
  use_subprocess : Bool
deriving DecidableEq, Repr

/-- A constructed `Parallel` workflow object (parallel.py lines 30-46). -/
structure ParWorkflow where
  scripts : List ScriptDesc
  max_workers : Option Nat
  use_subprocess : Bool
deriving DecidableEq, Repr

/-- `Sequential.__init__` (sequential.py lines 39-48): `super().__init__`
first, then record `use_subprocess`. -/
def mkSequential (exists_ : ScriptDesc → Bool) (scripts : List ScriptDesc)
    (useSub : Bool) : Except WorkflowErr SeqWorkflow :=
  match mkScriptWorkflow exists_ scripts with
  | .error e => .error e
  | .ok ss => .ok ⟨ss, useSub⟩

/-- `Parallel.__init__` (parallel.py lines 30-46): `super().__init__` first,
then record `max_workers` and `use_subprocess`. -/
def mkParallel (exists_ : ScriptDesc → Bool) (scripts : List ScriptDesc)
    (maxWorkers : Option Nat) (useSub : Bool) :
    Except WorkflowErr ParWorkflow :=
  match mkScriptWorkflow exists_ scripts with
  | .error e => .error e
  | .ok ss => .ok ⟨ss, maxWorkers, useSub⟩

/-! ## Helper lemmas -/

theorem findSome?_eq_head?_filterMap {α β : Type} (f : α → Option β) :
    ∀ l : List α, l.findSome? f = (l.filterMap f).head? := by
  intro l
  induction l with
  | nil => rfl
  | cons a rest ih =>
    rw [List.findSome?_cons, List.filterMap_cons]
    cases h : f a with
    | none => exact ih
    | some b => simp

theorem inject_err_eq_firstProtected (g : List (String × PyVal)) :
    ∀ m : PyModule, (inject m g).2 = firstProtected g := by
  induction g with
  | nil => intro m; rfl
  | cons hd tl ih =>
    intro m
    obtain ⟨n, v⟩ := hd
    by_cases hp : n ∈ PROTECTED_NAMES
    · simp [inject, hp, firstProtected]
    · simp only [inject, hp, if_false, firstProtected, List.findSome?_cons]
      simpa [hp, firstProtected] using ih (m.setAttr n v)

/-! ## Claim C1 -/

/-- C1, counterexample: with overrides `{x: ·, __name__: ·}` on an initially
empty module, `inject` does raise the rejection error, but the override `x`
has already been applied when it raises — the module's attribute set is not
what it was before the call, contrary to the claim. -/
theorem c1_counterexample :
    (∃ p ∈ [("x", (⟨false, 1⟩ : PyVal)), ("__name__", ⟨false, 2⟩)],
        p.1 ∈ PROTECTED_NAMES) ∧
    (inject ⟨[]⟩ [("x", ⟨false, 1⟩), ("__name__", ⟨false, 2⟩)]).2
        = some "__name__" ∧
    (inject ⟨[]⟩ [("x", ⟨false, 1⟩), ("__name__", ⟨false, 2⟩)]).1 ≠ ⟨[]⟩ :=
  ⟨⟨("__name__", ⟨false, 2⟩), by decide, by decide⟩, by decide, by decide⟩

/-- C1, amended: when the overrides mapping contains a reserved name,
`GlobalInjector.inject` raises the rejection error naming the first reserved
name in the mapping's order, and at the moment of the raise exactly the
overrides listed before that first reserved entry — and no others — have
been applied to the module. -/
theorem c1_inject_prefix_applied (m : PyModule) (g : List (String × PyVal))
    (h : ∃ p ∈ g, p.1 ∈ PROTECTED_NAMES) :
    (inject m g).2 = firstProtected g ∧ (inject m g).2.isSome = true ∧
    (inject m g).1
      = applyAll m (g.takeWhile fun p => decide (p.1 ∉ PROTECTED_NAMES)) := by
  refine ⟨inject_err_eq_firstProtected g m, ?_, ?_⟩
  · rw [inject_err_eq_firstProtected g m]
    obtain ⟨p, hmem, hp⟩ := h
    induction g with
    | nil => cases hmem
    | cons hd tl ih =>
      rcases List.mem_cons.mp hmem with rfl | hmem'
      · simp [firstProtected, List.findSome?_cons, hp]
      · by_cases hhd : hd.1 ∈ PROTECTED_NAMES
        · simp [firstProtected, List.findSome?_cons, hhd]
        · simpa [firstProtected, List.findSome?_cons, hhd] using ih hmem'
  · clear h
    induction g generalizing m with
    | nil => rfl
    | cons hd tl ih =>
      obtain ⟨n, v⟩ := hd
      by_cases hp : n ∈ PROTECTED_NAMES
      · simp [inject, hp, List.takeWhile_cons, applyAll]
      · simp only [inject, hp, if_false, List.takeWhile_cons]
        simpa [hp, applyAll] using ih (m.setAttr n v)

/-- C1, witness for the amended theorem at a concrete input. -/
theorem c1_witness :
    (∃ p ∈ [("lr", (⟨false, 3⟩ : PyVal)), ("__doc__", ⟨false, 4⟩),
        ("bs", ⟨false, 5⟩)], p.1 ∈ PROTECTED_NAMES) ∧
    ((inject ⟨[]⟩ [("lr", ⟨false, 3⟩), ("__doc__", ⟨false, 4⟩),
        ("bs", ⟨false, 5⟩)]).2
      = firstProtected [("lr", ⟨false, 3⟩), ("__doc__", ⟨false, 4⟩),
        ("bs", ⟨false, 5⟩)] ∧
    (inject ⟨[]⟩ [("lr", ⟨false, 3⟩), ("__doc__", ⟨false, 4⟩),
        ("bs", ⟨false, 5⟩)]).2.isSome = true ∧
    (inject ⟨[]⟩ [("lr", ⟨false, 3⟩), ("__doc__", ⟨false, 4⟩),
        ("bs", ⟨false, 5⟩)]).1
      = applyAll ⟨[]⟩ ([("lr", ⟨false, 3⟩), ("__doc__", ⟨false, 4⟩),
        ("bs", ⟨false, 5⟩)].takeWhile
          fun p => decide (p.1 ∉ PROTECTED_NAMES))) :=
  ⟨⟨("__doc__", ⟨false, 4⟩), by decide, by decide⟩,
   c1_inject_prefix_applied ⟨[]⟩ _ ⟨("__doc__", ⟨false, 4⟩), by decide, by decide⟩⟩

/-! ## Claim C2 -/

/-- C2, counterexample: in a unit whose main guard body is
`obj.meth(); foo()` (first call statement has a non-bare callee), loaded into
a module defining `foo` but no `main`, the source resolves `foo` — it skips
the non-matching first call and keeps scanning — while the claim's rule
("the first direct call statement", falling back otherwise) yields no entry
point. -/
theorem c2_counterexample :
    find_entrypoint fooOnlyModule guardSkipTree = some "foo" ∧
    claimResolution fooOnlyModule guardSkipTree = none ∧
    (some "foo" : Option String) ≠ none := by
  refine ⟨by decide, by decide, by decide⟩

/-- C2, amended: static entrypoint resolution returns the callee name of the
first call statement *of a recognised shape* inside a main-guard conditional
— a bare-name call, or `asyncio.run` wrapping a bare-name call, with call
statements of any other shape skipped, and guards containing no such call
skipped as well; otherwise (no guard, no such call, or the resolved name not
an attribute of the loaded module) the callable `main` fallback applies; and
`None` when none of these apply. -/
theorem c2_resolution_amended (m : PyModule) (tree : List PyStmt) :
    find_entrypoint m tree = claimResolutionAmended m tree := by
  unfold find_entrypoint claimResolutionAmended findMainBlockFunction
    resolvedNames
  rw [findSome?_eq_head?_filterMap]

/-! ## Claim C3 -/

/-- C3, counterexample: a unit with no resolvable entry operation, executed
with a supplied Configuration whose overrides name `__name__`: `execute`
raises the injection rejection, not the "no entry point" error the claim
promises for every supplied Configuration. -/
theorem c3_counterexample :
    autoResolve false ⟨[]⟩ [] = none ∧
    execute false ⟨[]⟩ [] none none
        (some ⟨[("__name__", ⟨false, 0⟩)], [], [], []⟩)
        (fun _ _ _ => .ok ⟨false, 0⟩)
      = .error (.protectedName "__name__") ∧
    ExecError.protectedName "__name__" ≠ ExecError.noEntrypoint :=
  ⟨by decide, by decide, by decide⟩

/-- C3, amended: with no explicit entry name set, (i) when no Configuration
was supplied at all and auto-detection finds nothing, `execute` completes
with no result; (ii) when a Configuration was supplied (directly or on the
script), `execute` raises the injection rejection if its overrides contain a
reserved name, and otherwise — when auto-detection on the injected module
finds nothing — raises the fatal "no entry point" error, returning no partial
result in either case. -/
theorem c3_execute_no_entrypoint (is_module : Bool) (m : PyModule)
    (tree : List PyStmt) (sc ac : Option Config)
    (callFn : String → List PyVal → List (String × PyVal) →
      Except ExecError PyVal) :
    (ac = none → sc = none → autoResolve is_module m tree = none →
        execute is_module m tree none sc ac callFn = .ok none) ∧
    (∀ c, (ac = some c ∨ (ac = none ∧ sc = some c)) →
        (∀ n, firstProtected c.globals_dict = some n →
            execute is_module m tree none sc ac callFn
              = .error (.protectedName n)) ∧
        (firstProtected c.globals_dict = none →
            autoResolve is_module (inject m c.globals_dict).1 tree = none →
            execute is_module m tree none sc ac callFn
              = .error .noEntrypoint)) := by
  constructor
  · rintro rfl rfl hres
    unfold autoResolve at hres
    cases is_module <;> simp_all [execute]
  · rintro c (rfl | ⟨rfl, rfl⟩) <;>
    · constructor
      · intro n hn
        cases hg : c.globals_dict with
        | nil => rw [hg] at hn; exact Option.noConfusion hn
        | cons hd tl =>
          have herr := inject_err_eq_firstProtected c.globals_dict m
          rw [hn, hg] at herr
          rcases hinj : inject m (hd :: tl) with ⟨m2, err⟩
          rw [hinj] at herr
          simp at herr
          subst herr
          simp [execute, hg, hinj]
      · intro hnone hres
        unfold autoResolve at hres
        cases hg : c.globals_dict with
        | nil =>
          have h1 : (inject m []).1 = m := rfl
          rw [hg, h1] at hres
          cases is_module <;> simp_all [execute]
        | cons hd tl =>
          have herr := inject_err_eq_firstProtected c.globals_dict m
          rw [hnone, hg] at herr
          rcases hinj : inject m (hd :: tl) with ⟨m2, err⟩
          rw [hinj] at herr
          simp at herr
          subst herr
          rw [hg, hinj] at hres
          simp at hres
          cases is_module <;> simp_all [execute]

/-- C3, witness for the amended theorem: an empty module with a supplied
(benign) Configuration yields the "no entry point" failure. -/
theorem c3_witness :
    firstProtected ([] : List (String × PyVal)) = none ∧
    autoResolve false (inject ⟨[]⟩ []).1 [] = none ∧
    execute false ⟨[]⟩ [] none none (some ⟨[], [], [], []⟩)
        (fun _ _ _ => .ok ⟨false, 0⟩) = .error .noEntrypoint :=
  ⟨by decide, by decide,
   ((c3_execute_no_entrypoint false ⟨[]⟩ [] none (some ⟨[], [], [], []⟩)
       (fun _ _ _ => .ok ⟨false, 0⟩)).2 ⟨[], [], [], []⟩
       (Or.inl rfl)).2 (by decide) (by decide)⟩

/-! ## Claim C4 -/

/-- C4, counterexample: an operation whose only parameter is keyword-only
accepts no positional parameter, fixed or variadic, yet the adaptation
passes the supplied positional argument list through (`len(params) > 0`
counts keyword-only parameters), contrary to the claim's "only if". -/
theorem c4_counterexample :
    acceptsPositional ⟨[("y", .kwOnly)]⟩ = false ∧
    (adaptArguments ⟨[("y", .kwOnly)]⟩ [⟨false, 5⟩] []).1 = [⟨false, 5⟩] ∧
    ([(⟨false, 5⟩ : PyVal)] : List PyVal) ≠ [] :=
  ⟨by decide, by decide, by decide⟩

/-- C4, amended: the adaptation passes the positional arguments exactly when
the operation declares at least one parameter of any kind (in particular
also when every declared parameter is keyword-only or variadic-keyword), and
passes exactly the subset of supplied keyword arguments whose names match
declared parameter names, except that an operation declaring a variadic
keyword parameter receives all supplied keyword arguments. -/
theorem c4_adapt_characterization (sig : PySig) (args : List PyVal)
    (kwargs : List (String × PyVal)) :
    (adaptArguments sig args kwargs).1
      = (if sig.params.isEmpty then [] else args) ∧
    (adaptArguments sig args kwargs).2
      = (if sig.params.any (fun p => p.2 == .varKw) then kwargs
         else kwargs.filter (fun kv => sig.params.any (fun p => p.1 == kv.1)))
    := by
  unfold adaptArguments
  constructor
  · cases sig.params with
    | nil => simp
    | cons a tl => simp
  · by_cases hk : sig.params.any (fun p => p.2 == .varKw)
    · simp [hk]
    · cases kwargs with
      | nil => simp [hk]
      | cons kv rest => simp [hk]

/-! ## Claim C5 -/

/-- C5, counterexample: a `config_gen` returning a list of `Config` values —
a sequence, hence iterable (`__iter__` present) — is rejected with the
shape-mismatch error instead of being wrapped in a `ConfigGenerator`,
because the source additionally requires `__next__`. -/
theorem c5_counterexample :
    PyObj.hasIterAttr (.listObj [.cfg ⟨[], [], [], []⟩]) = true ∧
    load_config ⟨some (true, .listObj [.cfg ⟨[], [], [], []⟩]), none⟩
      = .error .shapeMismatch :=
  ⟨by decide, by decide⟩

/-- C5, amended: for a callable `config_gen`, a `Config` result is returned
directly; a result that is an *iterator* (both `__iter__` and `__next__`
present) is wrapped in a fresh `ConfigGenerator`; any other result shape —
including a plain sequence such as a list, which lacks `__next__` — raises
the shape-mismatch error; and a file with neither `config_gen` nor `CONFIG`
raises the "no configuration found" error. -/
theorem c5_load_config_shapes (f : CfgFile) :
    (∀ c, f.config_gen = some (true, .configObj c) →
        load_config f = .ok (.single c)) ∧
    (∀ r, f.config_gen = some (true, r) → r.isConfig = false →
        r.hasIterAttr = true → r.hasNextAttr = true →
        load_config f = .ok (.generator ⟨r.items, false⟩)) ∧
    (∀ r, f.config_gen = some (true, r) → r.isConfig = false →
        (r.hasIterAttr && r.hasNextAttr) = false →
        load_config f = .error .shapeMismatch) ∧
    (f.config_gen = none → f.CONFIG = none →
        load_config f = .error .noConfigFound) := by
  refine ⟨?_, ?_, ?_, ?_⟩
  · intro c hc
    simp [load_config, hc, PyObj.isConfig]
  · intro r hr hic hit hnx
    cases r <;>
      simp_all [load_config, PyObj.isConfig, PyObj.hasIterAttr,
        PyObj.hasNextAttr, PyObj.items]
  · intro r hr hic hin
    cases r <;>
      simp_all [load_config, PyObj.isConfig, PyObj.hasIterAttr,
        PyObj.hasNextAttr]
  · intro h1 h2
    simp [load_config, h1, h2]

/-- C5, witness for the amended theorem at concrete configuration files. -/
theorem c5_witness :
    load_config ⟨some (true, .iteratorObj [.cfg ⟨[], [], [], []⟩]), none⟩
      = .ok (.generator ⟨[.cfg ⟨[], [], [], []⟩], false⟩) ∧
    load_config ⟨none, none⟩ = .error .noConfigFound :=
  ⟨by
    have h :=
      (c5_load_config_shapes
          ⟨some (true, .iteratorObj [.cfg ⟨[], [], [], []⟩]), none⟩).2.1
        (.iteratorObj [.cfg ⟨[], [], [], []⟩]) rfl (by decide) (by decide)
        (by decide)
    simpa using h,
   (c5_load_config_shapes ⟨none, none⟩).2.2.2 rfl rfl⟩

/-! ## Claim C6 -/

/-- C6: a pull that finds the underlying producer completed sets the
`exhausted` flag; once `exhausted` is set, every later pull — not just the
first — raises the exhaustion condition (`StopIteration`), and no sequence
of pulls ever resets the flag (the state stays fixed). -/
theorem c6_exhaustion_persistent (s : GenState) :
    (s.remaining = [] → s.exhausted = false →
        genNext s = (.stopUnderlying, ⟨[], true⟩)) ∧
    (s.exhausted = true → ∀ n,
        (∀ o ∈ (genPulls n s).1, o = .stopExhausted) ∧
        (genPulls n s).2 = s) := by
  constructor
  · intro hr he
    simp [genNext, hr, he]
  · intro he n
    induction n with
    | zero => exact ⟨by simp [genPulls], by simp [genPulls]⟩
    | succ k ih =>
      have hstep : genNext s = (.stopExhausted, s) := by simp [genNext, he]
      rcases ih with ⟨ih1, ih2⟩
      constructor
      · intro o ho
        simp only [genPulls, hstep] at ho
        rcases List.mem_cons.mp ho with rfl | ho'
        · rfl
        · exact ih1 o ho'
      · simp [genPulls, hstep, ih2]

/-- C6, witness: the completion pull on a fresh empty producer, then two
further pulls on the exhausted state. -/
theorem c6_witness :
    genNext ⟨[], false⟩ = (.stopUnderlying, ⟨[], true⟩) ∧
    (∀ o ∈ (genPulls 2 ⟨[], true⟩).1, o = .stopExhausted) ∧
    (genPulls 2 ⟨[], true⟩).2 = ⟨[], true⟩ :=
  ⟨(c6_exhaustion_persistent ⟨[], false⟩).1 rfl rfl,
   ((c6_exhaustion_persistent ⟨[], true⟩).2 rfl 2).1,
   ((c6_exhaustion_persistent ⟨[], true⟩).2 rfl 2).2⟩

/-! ## Claim C7 -/

theorem runFlat_append (oc : Nat → Nat → Except RunError PyVal)
    (a b : List (Nat × Nat)) :
    runFlat oc (a ++ b)
      = (match runFlat oc a with
         | (tr, .error e) => (tr, .error e)
         | (tr, .ok vs) =>
             (tr ++ (runFlat oc b).1, (runFlat oc b).2.map (vs ++ ·))) := by
  induction a with
  | nil =>
    rcases hb : runFlat oc b with ⟨tr', res'⟩
    cases res' <;> simp [runFlat, hb, Except.map]
  | cons t rest ih =>
    cases hoc : oc t.1 t.2 with
    | error e => simp [runFlat, hoc]
    | ok v =>
      rcases hr : runFlat oc rest with ⟨tra, resa⟩
      rcases hb : runFlat oc b with ⟨trb, resb⟩
      rw [List.cons_append]
      simp only [runFlat, hoc, ih, hr, hb]
      cases resa <;> cases resb <;> simp [Except.map]

theorem goIter_eq_runFlat (oc : Nat → Nat → Except RunError PyVal) (i : Nat) :
    ∀ (items : List GenItem) (j : Nat), items.all GenItem.isCfg = true →
      goIter oc i j items = runFlat oc (canonGen i j items) := by
  intro items
  induction items with
  | nil => intro j _; rfl
  | cons it rest ih =>
    intro j hall
    rw [List.all_cons, Bool.and_eq_true] at hall
    cases it with
    | bad t => exact absurd hall.1 (by simp [GenItem.isCfg])
    | cfg c =>
      have ihr := ih (j + 1) hall.2
      cases hoc : oc i j with
      | error e => simp [goIter, canonGen, runFlat, hoc]
      | ok v => simp [goIter, canonGen, runFlat, hoc, ihr]

theorem runSeqAux_eq_runFlat (oc : Nat → Nat → Except RunError PyVal) :
    ∀ (entries : List SEntry) (i : Nat), (∀ e ∈ entries, entryWF e = true) →
      runSeqAux oc i entries = runFlat oc (canonFrom i entries) := by
  intro entries
  induction entries with
  | nil => intro i _; rfl
  | cons ent rest ih =>
    intro i hwf
    have hent := hwf ent (List.mem_cons_self ent rest)
    have hrest : ∀ e ∈ rest, entryWF e = true :=
      fun e he => hwf e (List.mem_cons_of_mem ent he)
    have ihr := ih (i + 1) hrest
    cases ent with
    | single cfg =>
      cases hoc : oc i 0 with
      | error e => simp [runSeqAux, canonFrom, runFlat, hoc]
      | ok v => simp [runSeqAux, canonFrom, runFlat, hoc, ihr]
    | gen g =>
      rw [entryWF, Bool.and_eq_true, Bool.not_eq_true'] at hent
      have hgo := goIter_eq_runFlat oc i g.remaining 0 hent.2
      rcases hflat : runFlat oc (canonGen i 0 g.remaining) with ⟨tra, resa⟩
      have hiter : runIterative oc i g = (tra, resa) := by
        rw [runIterative, hent.1]
        simp [hgo, hflat]
      rw [runSeqAux, hiter, canonFrom, runFlat_append, hflat]
      cases resa with
      | error e => rfl
      | ok vs => rw [ihr]

theorem runFlat_all_ok (oc : Nat → Nat → Except RunError PyVal) :
    ∀ ts : List (Nat × Nat), (∀ t ∈ ts, (oc t.1 t.2).isOk = true) →
      runFlat oc ts = (ts, .ok (ts.map (fun t => okVal (oc t.1 t.2)))) := by
  intro ts
  induction ts with
  | nil => intro _; rfl
  | cons t rest ih =>
    intro h
    have ht := h t (List.mem_cons_self t rest)
    have ihr := ih (fun p hp => h p (List.mem_cons_of_mem t hp))
    cases hoc : oc t.1 t.2 with
    | error e => rw [hoc] at ht; exact absurd ht (by simp [Except.isOk, Except.toBool])
    | ok v => simp [runFlat, hoc, ihr, okVal, Except.map]

theorem runFlat_first_error (oc : Nat → Nat → Except RunError PyVal) :
    ∀ (pre : List (Nat × Nat)) (t : Nat × Nat) (post : List (Nat × Nat))
      (e : RunError),
      (∀ p ∈ pre, (oc p.1 p.2).isOk = true) → oc t.1 t.2 = .error e →
      runFlat oc (pre ++ t :: post) = (pre ++ [t], .error e) := by
  intro pre
  induction pre with
  | nil => intro t post e _ ht; simp [runFlat, ht]
  | cons p pre' ih =>
    intro t post e hpre ht
    have hp := hpre p (List.mem_cons_self p pre')
    have ihr := ih t post e (fun q hq => hpre q (List.mem_cons_of_mem p hq)) ht
    cases hoc : oc p.1 p.2 with
    | error e' => rw [hoc] at hp; exact absurd hp (by simp [Except.isOk, Except.toBool])
    | ok v => simp [runFlat, hoc, ihr, Except.map]

/-- C7: over well-formed entries, `Sequential.run` executes entries strictly
in list order, one execution per yielded `Configuration` of a generator entry
in source order, appending exactly one result per pull in the same order; and
a failing execution propagates immediately — the performed executions are
exactly those before and including the failing one, so no later entry or
later pull runs. -/
theorem c7_sequential_order (entries : List SEntry)
    (oc : Nat → Nat → Except RunError PyVal)
    (hwf : ∀ e ∈ entries, entryWF e = true) :
    ((∀ t ∈ canonFrom 0 entries, (oc t.1 t.2).isOk = true) →
        Sequential_run oc entries
          = (canonFrom 0 entries,
             .ok ((canonFrom 0 entries).map (fun t => okVal (oc t.1 t.2))))) ∧
    (∀ (pre : List (Nat × Nat)) (t : Nat × Nat) (post : List (Nat × Nat))
        (e : RunError),
        canonFrom 0 entries = pre ++ t :: post →
        (∀ p ∈ pre, (oc p.1 p.2).isOk = true) → oc t.1 t.2 = .error e →
        Sequential_run oc entries = (pre ++ [t], .error e)) := by
  have hbase := runSeqAux_eq_runFlat oc entries 0 hwf
  constructor
  · intro hok
    rw [Sequential_run, hbase, runFlat_all_ok oc _ hok]
  · intro pre t post e hsplit hpre hter
    rw [Sequential_run, hbase, hsplit,
      runFlat_first_error oc pre t post e hpre hter]

/-- C7, witness: a three-`Config` generator entry executes three times in
order with three results in order; with a failure at the second pull, only
the first two executions happen and the following entry never runs. -/
theorem c7_witness :
    Sequential_run (fun i j => .ok ⟨false, 10 * i + j⟩)
        [.gen ⟨[.cfg ⟨[], [], [], []⟩, .cfg ⟨[], [], [], []⟩,
          .cfg ⟨[], [], [], []⟩], false⟩]
      = ([(0, 0), (0, 1), (0, 2)],
         .ok [⟨false, 0⟩, ⟨false, 1⟩, ⟨false, 2⟩]) ∧
    Sequential_run
        (fun i j => if i == 0 && j == 1 then .error .genTypeError
          else .ok ⟨false, 0⟩)
        [.gen ⟨[.cfg ⟨[], [], [], []⟩, .cfg ⟨[], [], [], []⟩,
          .cfg ⟨[], [], [], []⟩], false⟩, .single none]
      = ([(0, 0), (0, 1)], .error .genTypeError) := by
  constructor
  · rw [(c7_sequential_order _ _ (by decide)).1 (by decide)]
    decide
  · rw [(c7_sequential_order _ _ (by decide)).2 [(0, 0)] (0, 1)
      [(0, 2), (1, 0)] .genTypeError (by decide) (by decide) (by decide)]
    decide

/-! ## Claim C8 -/

theorem splitLastColon_none :
    ∀ s : List Char, splitLastColon s = none → ':' ∉ s := by
  intro s
  induction s with
  | nil => intro _ hmem; cases hmem
  | cons c rest ih =>
    intro h
    unfold splitLastColon at h
    cases hr : splitLastColon rest with
    | some pe => rw [hr] at h; exact Option.noConfusion h
    | none =>
      rw [hr] at h
      by_cases hc : c = ':'
      · rw [if_pos hc] at h; exact Option.noConfusion h
      · rw [if_neg hc] at h
        intro hmem
        rcases List.mem_cons.mp hmem with heq | hmem'
        · exact hc heq.symm
        · exact ih hr hmem'

theorem splitLastColon_some :
    ∀ s p e : List Char, splitLastColon s = some (p, e) →
      s = p ++ ':' :: e ∧ ':' ∉ e := by
  intro s
  induction s with
  | nil => intro p e h; exact Option.noConfusion h
  | cons c rest ih =>
    intro p e h
    unfold splitLastColon at h
    cases hr : splitLastColon rest with
    | some pe =>
      obtain ⟨p', e'⟩ := pe
      rw [hr] at h
      simp only [Option.some.injEq, Prod.mk.injEq] at h
      obtain ⟨rfl, rfl⟩ := h
      obtain ⟨hrest, hne⟩ := ih _ _ hr
      exact ⟨by simp [hrest], hne⟩
    | none =>
      rw [hr] at h
      by_cases hc : c = ':'
      · rw [if_pos hc] at h
        simp only [Option.some.injEq, Prod.mk.injEq] at h
        obtain ⟨rfl, rfl⟩ := h
        subst hc
        exact ⟨rfl, splitLastColon_none rest hr⟩
      · rw [if_neg hc] at h; exact Option.noConfusion h

theorem fileEntryMatch_some (s p e : List Char)
    (h : fileEntryMatch s = some (p, e)) :
    s = p ++ ':' :: e ∧ endsWithPy p = true ∧ isIdentifier e = true := by
  unfold fileEntryMatch at h
  cases hsc : splitLastColon s with
  | none => rw [hsc] at h; exact Option.noConfusion h
  | some pe =>
    obtain ⟨p', e'⟩ := pe
    rw [hsc] at h
    dsimp only at h
    by_cases hcond : (endsWithPy p' && isIdentifier e') = true
    · rw [if_pos hcond] at h
      simp only [Option.some.injEq, Prod.mk.injEq] at h
      obtain ⟨rfl, rfl⟩ := h
      rw [Bool.and_eq_true] at hcond
      exact ⟨(splitLastColon_some s _ _ hsc).1, hcond.1, hcond.2⟩
    · rw [if_neg hcond] at h; exact Option.noConfusion h

/-- C8: in a `Script` constructed without an explicit entry argument, a
stored entry name only ever comes from a trailing `:identifier` that
immediately follows the `.py` extension at end-of-string (file targets) or
follows the last colon at end-of-string (importable targets, whose suffix
contains no further colon); in every other case — including drive-letter
colons in separator-bearing paths — no entry name is produced and the stored
target is the input string unchanged. -/
theorem c8_suffix_parsing (findSpec : List Char → Option (List Char))
    (fileExists isPyFile : List Char → Bool) (s : List Char) (d : ScriptDesc)
    (h : mkScript findSpec fileExists isPyFile none s = .ok d) :
    (d.is_module = false →
        (∀ e, d.entrypoint = some e →
            s = d.storedPath ++ ':' :: e ∧ endsWithPy d.storedPath = true ∧
            isIdentifier e = true) ∧
        (d.entrypoint = none → d.storedPath = s)) ∧
    (d.is_module = true →
        ∀ mn, d.module_name = some mn →
          (∀ e, d.entrypoint = some e → s = mn ++ ':' :: e ∧ ':' ∉ e) ∧
          (d.entrypoint = none → mn = s)) := by
  obtain ⟨dsp, dep, dim, dmn⟩ := d
  unfold mkScript at h
  by_cases hm : looksLikeModule s
  · rw [if_pos hm] at h
    unfold initAsModule at h
    cases hsc : splitLastColon s with
    | some pe =>
      obtain ⟨mp, ep⟩ := pe
      rw [hsc] at h
      dsimp only at h
      unfold resolveModuleSpec at h
      have hent : (if (none : Option (List Char)) = none then some ep
          else none) = some ep := if_pos rfl
      rw [hent] at h
      cases hfs : findSpec mp with
      | none => rw [hfs] at h; exact Except.noConfusion h
      | some loc =>
        rw [hfs] at h
        simp only [Except.ok.injEq, ScriptDesc.mk.injEq] at h
        obtain ⟨rfl, rfl, rfl, rfl⟩ := h
        refine ⟨fun hff => Bool.noConfusion hff, fun _ mn hmn => ?_⟩
        obtain rfl : mp = mn := Option.some.inj hmn
        obtain ⟨hs, hne⟩ := splitLastColon_some s _ _ hsc
        refine ⟨fun e he => ?_, fun hnone => Option.noConfusion hnone⟩
        obtain rfl : ep = e := Option.some.inj he
        exact ⟨hs, hne⟩
    | none =>
      rw [hsc] at h
      dsimp only at h
      unfold resolveModuleSpec at h
      cases hfs : findSpec s with
      | none => rw [hfs] at h; exact Except.noConfusion h
      | some loc =>
        rw [hfs] at h
        simp only [Except.ok.injEq, ScriptDesc.mk.injEq] at h
        obtain ⟨rfl, rfl, rfl, rfl⟩ := h
        refine ⟨fun hff => Bool.noConfusion hff, fun _ mn hmn => ?_⟩
        obtain rfl : s = mn := Option.some.inj hmn
        exact ⟨fun e he => Option.noConfusion he, fun _ => rfl⟩
  · rw [if_neg hm] at h
    unfold initAsFile at h
    cases hfm : fileEntryMatch s with
    | some pe =>
      obtain ⟨sp, en⟩ := pe
      rw [hfm] at h
      dsimp only at h
      unfold validateFilePath at h
      have hent : (if (none : Option (List Char)) = none then some en
          else none) = some en := if_pos rfl
      rw [hent] at h
      split at h
      · exact Except.noConfusion h
      · split at h
        · exact Except.noConfusion h
        · simp only [Except.ok.injEq, ScriptDesc.mk.injEq] at h
          obtain ⟨rfl, rfl, rfl, rfl⟩ := h
          obtain ⟨hs, hpy2, hid⟩ := fileEntryMatch_some s _ _ hfm
          refine ⟨fun _ => ⟨fun e he => ?_,
                    fun hnone => Option.noConfusion hnone⟩,
                  fun htrue => Bool.noConfusion htrue⟩
          obtain rfl : en = e := Option.some.inj he
          exact ⟨hs, hpy2, hid⟩
    | none =>
      rw [hfm] at h
      dsimp only at h
      unfold validateFilePath at h
      split at h
      · exact Except.noConfusion h
      · split at h
        · exact Except.noConfusion h
        · simp only [Except.ok.injEq, ScriptDesc.mk.injEq] at h
          obtain ⟨rfl, rfl, rfl, rfl⟩ := h
          exact ⟨fun _ => ⟨fun e he => Option.noConfusion he, fun _ => rfl⟩,
                 fun htrue => Bool.noConfusion htrue⟩

/-- C8, witness: a drive-letter path with a trailing `:func` parses the entry
and strips the suffix; the same path without a suffix keeps its drive colon
untouched. -/
theorem c8_witness :
    ("C:\\path\\script.py:func".data
        = (⟨"C:\\path\\script.py".data, some "func".data, false, none⟩ :
            ScriptDesc).storedPath ++ ':' ::
          "func".data ∧
      endsWithPy (⟨"C:\\path\\script.py".data, some "func".data, false,
          none⟩ : ScriptDesc).storedPath = true ∧
      isIdentifier "func".data = true) ∧
    (⟨"C:\\path\\script.py".data, none, false, none⟩ :
        ScriptDesc).storedPath = "C:\\path\\script.py".data :=
  ⟨((c8_suffix_parsing (fun _ => none) (fun _ => true) (fun _ => true)
        "C:\\path\\script.py:func".data
        ⟨"C:\\path\\script.py".data, some "func".data, false, none⟩
        (by decide)).1 rfl).1 "func".data rfl,
   ((c8_suffix_parsing (fun _ => none) (fun _ => true) (fun _ => true)
        "C:\\path\\script.py".data
        ⟨"C:\\path\\script.py".data, none, false, none⟩
        (by decide)).1 rfl).2 rfl⟩

/-! ## Claim C9 -/

/-- C9: when the `Script` constructor receives both an explicit entrypoint
argument and a target carrying a `:symbol` suffix, the explicit argument
wins — the suffix name is discarded for file and importable targets alike —
while the suffix is still stripped from the stored target. -/
theorem c9_explicit_precedence (findSpec : List Char → Option (List Char))
    (fileExists isPyFile : List Char → Bool) (e0 s : List Char)
    (d : ScriptDesc)
    (h : mkScript findSpec fileExists isPyFile (some e0) s = .ok d) :
    (∀ p en, fileEntryMatch s = some (p, en) →
        d.entrypoint = some e0 ∧ d.storedPath = p) ∧
    (looksLikeModule s = true →
        ∀ mp ep, splitLastColon s = some (mp, ep) →
          d.entrypoint = some e0 ∧ d.module_name = some mp) := by
  obtain ⟨dsp, dep, dim, dmn⟩ := d
  constructor
  · intro p en hfm
    have hm : looksLikeModule s = false := by
      unfold looksLikeModule
      by_cases hsep : s.any (fun c => c == '/' || c == '\\') <;>
        simp [hsep, hfm]
    unfold mkScript at h
    rw [hm] at h
    simp only [Bool.false_eq_true, if_false] at h
    unfold initAsFile at h
    rw [hfm] at h
    dsimp only at h
    unfold validateFilePath at h
    have hent : (if (some e0 : Option (List Char)) = none then some en
        else some e0) = some e0 := if_neg (by simp)
    rw [hent] at h
    split at h
    · exact Except.noConfusion h
    · split at h
      · exact Except.noConfusion h
      · simp only [Except.ok.injEq, ScriptDesc.mk.injEq] at h
        obtain ⟨rfl, rfl, rfl, rfl⟩ := h
        exact ⟨rfl, rfl⟩
  · intro hm mp ep hsc
    unfold mkScript at h
    rw [hm] at h
    simp only [if_true] at h
    unfold initAsModule at h
    rw [hsc] at h
    dsimp only at h
    unfold resolveModuleSpec at h
    have hent : (if (some e0 : Option (List Char)) = none then some ep
        else some e0) = some e0 := if_neg (by simp)
    rw [hent] at h
    cases hfs : findSpec mp with
    | none => rw [hfs] at h; exact Except.noConfusion h
    | some loc =>
      rw [hfs] at h
      simp only [Except.ok.injEq, ScriptDesc.mk.injEq] at h
      obtain ⟨rfl, rfl, rfl, rfl⟩ := h
      exact ⟨rfl, rfl⟩

/-- C9, witness: explicit entrypoint argument beats the `:func` suffix for a
file target and the `:run` suffix for an importable target. -/
theorem c9_witness :
    ((⟨"script.py".data, some "ep".data, false, none⟩ :
        ScriptDesc).entrypoint = some "ep".data ∧
     (⟨"script.py".data, some "ep".data, false, none⟩ :
        ScriptDesc).storedPath = "script.py".data) ∧
    ((⟨"loc".data, some "ep".data, true, some "pkg.mod".data⟩ :
        ScriptDesc).entrypoint = some "ep".data ∧
     (⟨"loc".data, some "ep".data, true, some "pkg.mod".data⟩ :
        ScriptDesc).module_name = some "pkg.mod".data) :=
  ⟨(c9_explicit_precedence (fun _ => none) (fun _ => true) (fun _ => true)
      "ep".data "script.py:func".data
      ⟨"script.py".data, some "ep".data, false, none⟩ (by decide)).1
      "script.py".data "func".data (by decide),
   (c9_explicit_precedence (fun _ => some "loc".data) (fun _ => true)
      (fun _ => true) "ep".data "pkg.mod:run".data
      ⟨"loc".data, some "ep".data, true, some "pkg.mod".data⟩ (by decide)).2
      (by decide) "pkg.mod".data "run".data (by decide)⟩

/-! ## Claim C10 -/

/-- C10: constructing a `Sequential` or `Parallel` workflow with an empty
script list raises `ValueError` at construction time, and any successfully
constructed workflow object holds at least one script. -/
theorem c10_workflow_nonempty (exists_ : ScriptDesc → Bool)
    (mw : Option Nat) (useSub : Bool) :
    mkSequential exists_ [] useSub = .error .emptyScripts ∧
    mkParallel exists_ [] mw useSub = .error .emptyScripts ∧
    (∀ scripts w, mkSequential exists_ scripts useSub = .ok w →
        w.scripts ≠ []) ∧
    (∀ scripts w, mkParallel exists_ scripts mw useSub = .ok w →
        w.scripts ≠ []) := by
  refine ⟨rfl, rfl, ?_, ?_⟩
  · intro scripts w h
    unfold mkSequential at h
    cases hws : mkScriptWorkflow exists_ scripts with
    | error e => rw [hws] at h; exact Except.noConfusion h
    | ok ss =>
      rw [hws] at h
      have hw : w = ⟨ss, useSub⟩ := (Except.ok.inj h).symm
      subst hw
      unfold mkScriptWorkflow at hws
      cases scripts with
      | nil => simp at hws
      | cons a rest =>
        simp only [List.isEmpty_cons, Bool.false_eq_true, if_false] at hws
        split at hws
        · have hss : a :: rest = ss := Except.ok.inj hws
          show ss ≠ []
          intro hnil
          rw [← hss] at hnil
          exact List.cons_ne_nil a rest hnil
        · exact Except.noConfusion hws
  · intro scripts w h
    unfold mkParallel at h
    cases hws : mkScriptWorkflow exists_ scripts with
    | error e => rw [hws] at h; exact Except.noConfusion h
    | ok ss =>
      rw [hws] at h
      have hw : w = ⟨ss, mw, useSub⟩ := (Except.ok.inj h).symm
      subst hw
      unfold mkScriptWorkflow at hws
      cases scripts with
      | nil => simp at hws
      | cons a rest =>
        simp only [List.isEmpty_cons, Bool.false_eq_true, if_false] at hws
        split at hws
        · have hss : a :: rest = ss := Except.ok.inj hws
          show ss ≠ []
          intro hnil
          rw [← hss] at hnil
          exact List.cons_ne_nil a rest hnil
        · exact Except.noConfusion hws

/-- C10, witness: the empty-list rejection concretely, and a one-script
workflow holding a nonempty list. -/
theorem c10_witness :
    mkSequential (fun _ => true) [] false = .error .emptyScripts ∧
    (⟨[⟨[], none, false, none⟩], false⟩ : SeqWorkflow).scripts ≠ [] ∧
    (⟨[⟨[], none, false, none⟩], none, true⟩ : ParWorkflow).scripts ≠ [] :=
  ⟨(c10_workflow_nonempty (fun _ => true) none false).1,
   (c10_workflow_nonempty (fun _ => true) none false).2.2.1
     [⟨[], none, false, none⟩] ⟨[⟨[], none, false, none⟩], false⟩ (by decide),
   (c10_workflow_nonempty (fun _ => true) none true).2.2.2
     [⟨[], none, false, none⟩] ⟨[⟨[], none, false, none⟩], none, true⟩
     (by decide)⟩

end KE
